import Mathlib

set_option autoImplicit false
set_option linter.unusedVariables false

/-
Verification development for the kicad-source-mirror excerpts:
 - gerbview.cpp (module bootstrap: IFACE::CreateWindow, KIFACE_GETTER, Pgm)
 - eeschema/cmp_tree_model_adapter_base.h (component tree model adapter)
The adapter's implementation file and the node model header are absent from
the excerpt; those operations are modelled from the specification, as marked
in their doc comments. Everything else is translated from the source.
-/

/- ===================== gerbview module bootstrap ===================== -/

/-- Abstract KIWAY object handed to the window factory (`KIWAY*` in the
source); only its identity matters to the embedded logic. -/
structure KIWAY where
  id : Nat
deriving DecidableEq, Repr

/-- Abstract wxWindow parent pointer handed to the window factory. -/
structure WxWindow where
  id : Nat
deriving DecidableEq, Repr

/-- A constructed GERBVIEW_FRAME, recording the kiway and parent passed to
its constructor (`new GERBVIEW_FRAME( aKiway, aParent )`). The constructor
body lives outside the excerpt; the frame is abstracted by its constructor
arguments. -/
structure GERBVIEW_FRAME where
  kiway : KIWAY
  parent : WxWindow
deriving DecidableEq, Repr

/-- Frame class identifier (`aClassId` in `CreateWindow`). `FRAME_GERBER` is
an enumerator declared in the host's headers outside the excerpt; only its
identity is used by the dispatch, so any fixed value serves. -/
def FRAME_GERBER : Nat := 0

/-- Embedding of `GERBV::IFACE::CreateWindow` (gerbview.cpp): a `switch` on
`aClassId` that returns a newly constructed `GERBVIEW_FRAME` for
`FRAME_GERBER` and `NULL` (here `none`) for every other identifier. The
`aCtlBits` argument is accepted and ignored, as in the source. -/
def CreateWindow (aParent : WxWindow) (aClassId : Nat) (aKiway : KIWAY)
    (aCtlBits : Nat) : Option GERBVIEW_FRAME :=
  if aClassId = FRAME_GERBER then
    some { kiway := aKiway, parent := aParent }
  else
    none

/-- Abstract non-null host program object (`PGM_BASE`). -/
structure PGM_BASE where
  id : Nat
deriving DecidableEq, Repr

/-- The gerbview module's static state: `static PGM_BASE* process;` from
gerbview.cpp, a null-initialized module-level pointer. -/
structure ModuleState where
  process : Option PGM_BASE
deriving DecidableEq, Repr

/-- State of the module before any initialization: the static `process`
pointer is null. -/
def initialModuleState : ModuleState := { process := none }

/-- Embedding of `KIFACE_GETTER` (gerbview.cpp): stores the host program
pointer into the static `process` and returns `&kiface` (the returned kiface
reference carries no data relevant here and is omitted). -/
def KIFACE_GETTER (aProgram : PGM_BASE) (s : ModuleState) : ModuleState :=
  { s with process := some aProgram }

/-- Result of a call to `Pgm()`: whether the `wxASSERT( process )` fired
(it fires exactly when the stored pointer is null; fatal only in debug
builds), and the program object returned. In a release build a null
`process` would be dereferenced; the embedding reports `none` there. -/
structure PgmResult where
  assertFired : Bool
  program : Option PGM_BASE
deriving DecidableEq, Repr

/-- Embedding of `Pgm()` (gerbview.cpp): asserts that `process` is non-null
and dereferences it. -/
def Pgm (s : ModuleState) : PgmResult :=
  { assertFired := s.process.isNone, program := s.process }

/- ===================== component tree model adapter ===================== -/

/-- Modelled from the spec: the node type tag of `CMP_TREE_NODE::TYPE`
(cmp_tree_model.h is absent from the excerpt). The hierarchy is
root, library, alias/component (LIBID), unit, with INVALID as the
sentinel returned by `GetTypeFor` for unusable handles. -/
inductive TYPE where
  | ROOT
  | LIB
  | LIBID
  | UNIT
  | INVALID
deriving DecidableEq, Repr

/-- Modelled from the spec: `LIB_ID` (lib_id.h is absent from the excerpt),
the compound selection key: library nickname plus component/alias name. -/
structure LIB_ID where
  libNickname : String
  libItemName : String
deriving DecidableEq, Repr

/-- Modelled from the spec: a unit node (sub-part of a multi-unit
component), carrying its unit number and a match score. -/
structure UnitNode where
  unit : Nat
  score : Int
deriving DecidableEq, Repr

/-- Modelled from the spec: an alias/component leaf node, carrying its
display name, description text, its `LIB_ID`, owned unit children in
insertion order, and a match score recomputed on each search update. -/
structure AliasNode where
  name : String
  desc : String
  libId : LIB_ID
  units : List UnitNode
  score : Int
deriving DecidableEq, Repr

/-- Modelled from the spec: a library grouping node, owning its
alias/component children in insertion order, with a score propagated from
the best child. -/
structure LibNode where
  name : String
  aliases : List AliasNode
  score : Int
deriving DecidableEq, Repr

/-- Modelled from the spec: the root node `CMP_TREE_NODE_ROOT m_tree`; it
owns the top-level library nodes and is not itself shown to the view. -/
structure RootNode where
  libs : List LibNode
deriving DecidableEq, Repr

/-- Embedding of `GetLibrariesCount` (inline in the header):
`return m_tree.Children.size();`. -/
def GetLibrariesCount (t : RootNode) : Nat :=
  t.libs.length

/-- Modelled from the spec: an occurrence (substring) test on character
lists, the core of the absent fuzzy/substring matcher (`EDA_COMBINED_MATCHER`
and `CMP_TREE_NODE::UpdateScore` are outside the excerpt). -/
def occursIn : List Char → List Char → Bool
  | needle, [] => needle.isEmpty
  | needle, c :: rest =>
    List.isPrefixOf needle (c :: rest) || occursIn needle rest

/-- Modelled from the spec: the passthrough score assigned by an empty
search, under which every node is visible. It dominates every match score,
so narrowing a search never raises a score. -/
def kPassthroughScore : Int := 3

/-- Modelled from the spec: the leaf scoring function of the absent search
implementation. An empty search yields the passthrough score; a non-empty
search scores a leaf by substring match against its name (weight 2) and its
description (weight 1); a leaf with no match scores 0 and is filtered. -/
def matchScore (aSearch name desc : String) : Int :=
  if aSearch.toList.isEmpty then
    kPassthroughScore
  else
    (if occursIn aSearch.toList name.toList then 2 else 0)
      + (if occursIn aSearch.toList desc.toList then 1 else 0)

/-- Modelled from the spec: rescoring of one alias leaf; the score is
recomputed from scratch (never accumulated) and each unit child inherits
the leaf's score. -/
def scoreAlias (aSearch : String) (a : AliasNode) : AliasNode :=
  let s := matchScore aSearch a.name a.desc
  { a with score := s, units := a.units.map fun u => { u with score := s } }

/-- Modelled from the spec: best score among a list of scores (a parent
receives the best child score; with no children the result is 0). -/
def bestScore (scores : List Int) : Int :=
  scores.foldr max 0

/-- Modelled from the spec: rescoring of one library node; children are
rescored and the best child score is propagated up (a library is relevant
if any of its components are), while an empty search assigns the
passthrough score to every node. -/
def scoreLib (aSearch : String) (l : LibNode) : LibNode :=
  let as := l.aliases.map (scoreAlias aSearch)
  { l with
    aliases := as,
    score :=
      if aSearch.toList.isEmpty then kPassthroughScore
      else bestScore (as.map AliasNode.score) }

/-- Modelled from the spec: the scoring pass of `UpdateSearchString`
(ResetScore followed by UpdateScore in the absent implementation): every
node's score is recomputed from the search text alone. -/
def scoreTree (aSearch : String) (t : RootNode) : RootNode :=
  { libs := t.libs.map (scoreLib aSearch) }

/-- Modelled from the spec: the visibility filter of `filterContents`
(implementation absent): nodes below the relevance threshold (score 0 or
less) are hidden, not removed; order is preserved. Visible library nodes. -/
def visibleLibs (t : RootNode) : List LibNode :=
  t.libs.filter fun l => 0 < l.score

/-- Modelled from the spec: visible alias children of one library node
under the same threshold as `visibleLibs`. -/
def visibleAliases (l : LibNode) : List AliasNode :=
  l.aliases.filter fun a => 0 < a.score

/-- Modelled from the spec: visible unit children of one alias leaf under
the same threshold as `visibleLibs`. -/
def visibleUnits (a : AliasNode) : List UnitNode :=
  a.units.filter fun u => 0 < u.score

/-- Modelled from the spec: the referent of an opaque `wxDataViewItem`
handle. A handle is either null/invalid or denotes a node: a library
grouping, an alias leaf, or a unit (with its parent alias). -/
inductive HNode where
  | lib (l : LibNode)
  | alias (a : AliasNode)
  | unitN (u : UnitNode) (parent : AliasNode)
deriving DecidableEq, Repr

/-- Modelled from the spec: an opaque item handle (`wxDataViewItem`),
either invalid (`none`) or denoting a node. -/
abbrev Handle := Option HNode

/-- Modelled from the spec: `GetAliasFor` (implementation absent): decode a
handle into its `LIB_ID`, returning the null sentinel (`none`, `nullptr` in
the source) for an invalid handle or a non-leaf node. The accessor is a
pure function of the handle: it mutates nothing and is total. -/
def GetAliasFor (aSelection : Handle) : Option LIB_ID :=
  match aSelection with
  | some (HNode.alias a) => some a.libId
  | some (HNode.unitN _ pa) => some pa.libId
  | _ => none

/-- Modelled from the spec: `GetUnitFor` (implementation absent): decode a
handle into its unit number, returning the zero "no unit" sentinel when the
alias itself is selected, and for an invalid handle or a non-leaf node.
Pure and total. -/
def GetUnitFor (aSelection : Handle) : Nat :=
  match aSelection with
  | some (HNode.unitN u _) => u.unit
  | _ => 0

/-- Modelled from the spec: `GetTypeFor` (implementation absent): decode a
handle into its node type, returning the `INVALID` sentinel for an invalid
handle or a non-leaf node (e.g. a library grouping). Pure and total. -/
def GetTypeFor (aSelection : Handle) : TYPE :=
  match aSelection with
  | some (HNode.alias _) => TYPE.LIBID
  | some (HNode.unitN _ _) => TYPE.UNIT
  | _ => TYPE.INVALID

/-- Modelled from the spec: one step of the `FindItem` search — inside a
library whose nickname matches the key, find the first component whose
name matches the key's item name. -/
def findInLib (l : LibNode) (k : LIB_ID) : Option AliasNode :=
  if l.name = k.libNickname then
    l.aliases.find? fun a => a.name == k.libItemName
  else
    none

/-- Modelled from the spec: the search of `FindItem` (implementation
absent): walk root→library→component, matching the library by nickname and
the component by item name, returning the first matching alias leaf. -/
def findAliasInLibs : List LibNode → LIB_ID → Option AliasNode
  | [], _ => none
  | l :: rest, k =>
    match findInLib l k with
    | some a => some a
    | none => findAliasInLibs rest k

/-- Modelled from the spec: `FindItem` (implementation absent): returns the
tree item handle for the part named by the `LIB_ID`, or the invalid handle
if nothing was found. -/
def FindItem (t : RootNode) (aLibId : LIB_ID) : Handle :=
  (findAliasInLibs t.libs aLibId).map HNode.alias

/-- Input record for population: one alias entry resolved from a library
(name, descriptive metadata, number of units). -/
structure AliasData where
  name : String
  desc : String
  unitCount : Nat
deriving DecidableEq, Repr

/-- Modelled from the spec: construction of one alias leaf during
population; its selection key is the parent node's name plus its own name,
its units are numbered from 1, and scores start at 0. -/
def mkAliasNode (aNodeName : String) (d : AliasData) : AliasNode :=
  { name := d.name,
    desc := d.desc,
    libId := { libNickname := aNodeName, libItemName := d.name },
    units := (List.range d.unitCount).map fun i => { unit := i + 1, score := 0 },
    score := 0 }

/-- Modelled from the spec: construction of one library grouping node with
its alias children, preserving the given insertion order. -/
def mkLibNode (aNodeName : String) (ds : List AliasData) : LibNode :=
  { name := aNodeName, aliases := ds.map (mkAliasNode aNodeName), score := 0 }

/-- Modelled from the spec: `AddAliasList` (implementation absent): called
in the setup phase, appends one new subtree under the root holding every
given entry under the named grouping node. -/
def AddAliasList (t : RootNode) (aNodeName : String) (ds : List AliasData) :
    RootNode :=
  { libs := t.libs ++ [mkLibNode aNodeName ds] }

/-- The empty tree, before population. -/
def emptyTree : RootNode := { libs := [] }

/-- Modelled from the spec: the setup phase as a whole — one insertion call
per library, in order, starting from the empty tree. -/
def populate (aLibs : List (String × List AliasData)) : RootNode :=
  aLibs.foldl (fun t p => AddAliasList t p.1 p.2) emptyTree

/-- Which node the view was told to expand and reveal by the update's
expansion phase, tagged by the policy that produced it. -/
inductive Expansion where
  | results (best : LIB_ID)
  | preselect (key : LIB_ID)
  | singleLibrary (libName : String)
deriving DecidableEq, Repr

/-- The three expansion policies, for stating which one fired. -/
inductive Policy where
  | results
  | preselect
  | singleLibrary
deriving DecidableEq, Repr

/-- The policy that produced an expansion. -/
def Expansion.policy : Expansion → Policy
  | Expansion.results _ => Policy.results
  | Expansion.preselect _ => Policy.preselect
  | Expansion.singleLibrary _ => Policy.singleLibrary

/-- Modelled from the spec: whether the update produced scored search
results — a non-empty search under which some leaf still scores above the
filter threshold. -/
def hasResults (aSearch : String) (t : RootNode) : Bool :=
  !aSearch.toList.isEmpty
    && t.libs.any fun l => l.aliases.any fun a => 0 < a.score

/-- All alias leaves of the tree in tree order. -/
def allLeaves (t : RootNode) : List AliasNode :=
  t.libs.foldr (fun l acc => l.aliases ++ acc) []

/-- Modelled from the spec: the best-scoring leaf (earliest in tree order
among ties), whose path is revealed by the search-results policy. -/
def bestLeaf : List AliasNode → Option AliasNode
  | [] => none
  | a :: rest =>
    match bestLeaf rest with
    | none => some a
    | some b => if a.score < b.score then some b else some a

/-- Modelled from the spec: `ShowResults` (implementation absent): if there
are scored search results, expand and reveal the best-scoring path. -/
def ShowResults (aSearch : String) (t : RootNode) : Option Expansion :=
  if hasResults aSearch t then
    (bestLeaf (allLeaves t)).map fun a => Expansion.results a.libId
  else
    none

/-- Modelled from the spec: `ShowPreselect` (implementation absent): if a
preselect key was set and the tree holds that node, expand and reveal the
path to it. -/
def ShowPreselect (t : RootNode) (pre : Option (LIB_ID × Nat)) :
    Option Expansion :=
  match pre with
  | some (k, _) =>
    if (FindItem t k).isSome then some (Expansion.preselect k) else none
  | none => none

/-- Modelled from the spec: `ShowSingleLibrary` (implementation absent): if
exactly one library is loaded, auto-expand it. -/
def ShowSingleLibrary (t : RootNode) : Option Expansion :=
  match t.libs with
  | [l] => some (Expansion.singleLibrary l.name)
  | _ => none

/-- Modelled from the spec: the expansion phase of `UpdateSearchString`,
the short-circuit chain `ShowResults() || ShowPreselect() ||
ShowSingleLibrary()`: each policy is tried in priority order and the first
one that applies fires; later policies are not tried. -/
def expandAfterScore (aSearch : String) (t : RootNode)
    (pre : Option (LIB_ID × Nat)) : Option Expansion :=
  match ShowResults aSearch t with
  | some e => some e
  | none =>
    match ShowPreselect t pre with
    | some e => some e
    | none => ShowSingleLibrary t

/-- The policies whose firing condition holds on the scored tree, in
priority order, independent of the dispatch that runs them. -/
def applicablePolicies (aSearch : String) (t : RootNode)
    (pre : Option (LIB_ID × Nat)) : List Policy :=
  (if (ShowResults aSearch t).isSome then [Policy.results] else [])
    ++ (if (ShowPreselect t pre).isSome then [Policy.preselect] else [])
    ++ (if (ShowSingleLibrary t).isSome then [Policy.singleLibrary] else [])

/-- The adapter's mutable state relevant to the embedded operations: the
tree, the preselect key set by `SetPreselectNode` (key and unit), and the
expansion produced by the latest update (the view's revealed path). -/
structure AdapterState where
  tree : RootNode
  preselect : Option (LIB_ID × Nat)
  lastExpansion : Option Expansion
deriving DecidableEq, Repr

/-- Embedding of `SetPreselectNode` (implementation absent; behavior fixed
by the header doc): store the component to be selected when there are no
search results; takes effect at the next `UpdateSearchString`. -/
def SetPreselectNode (aLibId : LIB_ID) (aUnit : Nat) (st : AdapterState) :
    AdapterState :=
  { st with preselect := some (aLibId, aUnit) }

/-- Modelled from the spec: `UpdateSearchString` (implementation absent):
recompute every node's score from the search text, then run the expansion
policy chain on the scored tree. Only scores and the revealed-expansion
state change; shape and preselect key are untouched. -/
def UpdateSearchString (aSearch : String) (st : AdapterState) : AdapterState :=
  let t := scoreTree aSearch st.tree
  { st with
    tree := t,
    lastExpansion := expandAfterScore aSearch t st.preselect }

/-- Embedding of `SetValue` (inline in the header): `{ return false; }` —
the model rejects all edits and touches nothing. The variant argument is a
string, matching `GetColumnType`'s "string" for every column. -/
def SetValue (st : AdapterState) (aVariant : String) (aItem : Handle)
    (aCol : Nat) : Bool × AdapterState :=
  (false, st)

/-- Modelled from the spec: the process-wide width cache `m_width_cache`
(declared in the header as a static `WIDTH_CACHE`, a string hash map; the
implementation of `WidthFor` is absent). A mapping keyed by displayed text
and column to a previously computed pixel width, shared across all adapter
instances for the lifetime of the process. -/
structure WidthCache where
  entries : List (String × Nat × Int)
deriving DecidableEq, Repr

/-- Lookup of a cached measurement by text value and column. -/
def cacheLookup (c : WidthCache) (text : String) (aCol : Nat) : Option Int :=
  (c.entries.find? fun e => e.1 == text && e.2.1 == aCol).map fun e => e.2.2

/-- Result of one `WidthFor` call: the width returned, the cache
afterwards, and whether the toolkit measurement facility was invoked. -/
structure WidthResult where
  width : Int
  cache : WidthCache
  measured : Bool
deriving DecidableEq, Repr

/-- Modelled from the spec: `WidthFor` (implementation absent): return the
cached measurement for the displayed text if present; otherwise measure
the text via the toolkit's metrics facility (the `measure` argument) and
store the result before returning. -/
def WidthFor (measure : String → Nat → Int) (c : WidthCache) (text : String)
    (aCol : Nat) : WidthResult :=
  match cacheLookup c text aCol with
  | some w => { width := w, cache := c, measured := false }
  | none =>
    let w := measure text aCol
    { width := w, cache := { entries := (text, aCol, w) :: c.entries },
      measured := true }

/-- The text displayed for an alias node in a column: column 0 shows the
part name and column 1 the description (`GetColumnCount` returns 2 in the
header and both columns are strings). -/
def displayText (a : AliasNode) (aCol : Nat) : String :=
  if aCol = 0 then a.name else a.desc

/-- Modelled from the spec: the node overload of `WidthFor`: measure the
node's displayed text for the column; the cache key is the text value, not
the node, so identical strings across nodes share one measurement. -/
def WidthForNode (measure : String → Nat → Int) (c : WidthCache)
    (a : AliasNode) (aCol : Nat) : WidthResult :=
  WidthFor measure c (displayText a aCol) aCol

/-- The score of the alias leaf at library index `i`, child index `j`, if
those indices are in range. -/
def aliasScoreAt (t : RootNode) (i j : Nat) : Option Int :=
  (t.libs[i]?).bind fun l => (l.aliases[j]?).map AliasNode.score

/-- The score of the library node at index `i`, if in range. -/
def libScoreAt (t : RootNode) (i : Nat) : Option Int :=
  (t.libs[i]?).map LibNode.score

/-- The score of the unit node at library index `i`, alias index `j`, unit
index `u`, if those indices are in range. -/
def unitScoreAt (t : RootNode) (i j u : Nat) : Option Int :=
  (t.libs[i]?).bind fun l =>
    (l.aliases[j]?).bind fun a => (a.units[u]?).map UnitNode.score

/-- The position of one node of any kind in the tree: a library, an
alias/component leaf, or a unit, addressed by indices. -/
inductive NodePos where
  | lib (i : Nat)
  | aliasP (i j : Nat)
  | unitP (i j u : Nat)
deriving DecidableEq, Repr

/-- The score of the node at a position, covering every node kind the view
shows (libraries, aliases and units). -/
def scoreAt (t : RootNode) : NodePos → Option Int
  | NodePos.lib i => libScoreAt t i
  | NodePos.aliasP i j => aliasScoreAt t i j
  | NodePos.unitP i j u => unitScoreAt t i j u

/-- Shape of one alias leaf: everything except the mutable score fields. -/
def aliasShape (a : AliasNode) : String × String × LIB_ID × Nat :=
  (a.name, a.desc, a.libId, a.units.length)

/-- Shape of one library node: name and the shapes of its children in
order. -/
def libShape (l : LibNode) : String × List (String × String × LIB_ID × Nat) :=
  (l.name, l.aliases.map aliasShape)

/-- Shape of the whole tree: parent/child structure, names, insertion
order and node counts, with scores erased. -/
def treeShape (t : RootNode) : List (String × List (String × String × LIB_ID × Nat)) :=
  t.libs.map libShape

/- ===================== concrete example data ===================== -/

/-- The spec's example library "74xx" with two components. -/
def exAliases74 : List AliasData :=
  [{ name := "74LS04", desc := "Hex inverter", unitCount := 6 },
   { name := "74HC00", desc := "Quad NAND gate", unitCount := 4 }]

/-- The spec's example tree: libraries "74xx" and "Connectors". -/
def exTreeTwoLibs : RootNode :=
  populate
    [("74xx", exAliases74),
     ("Connectors", [{ name := "CONN_01X02", desc := "Connector", unitCount := 1 }])]

/-- Adapter state over the two-library example, with no preselect key. -/
def exStateTwoLibs : AdapterState :=
  { tree := exTreeTwoLibs, preselect := none, lastExpansion := none }

/-- A concrete stand-in for the toolkit's text measurement facility. -/
def exMeasure : String → Nat → Int :=
  fun text aCol => text.length + aCol

/-- The empty process-wide width cache. -/
def exEmptyCache : WidthCache := { entries := [] }

/-- A concrete alias node displaying "74HC00" in column 0. -/
def exNodeA : AliasNode :=
  { name := "74HC00", desc := "Quad NAND gate",
    libId := { libNickname := "74xx", libItemName := "74HC00" },
    units := [], score := 0 }

/-- A distinct alias node (different description, different library)
displaying the identical text "74HC00" in column 0. -/
def exNodeB : AliasNode :=
  { name := "74HC00", desc := "Other part with the same name",
    libId := { libNickname := "other", libItemName := "74HC00" },
    units := [], score := 0 }

/- ===================== theorems: gerbview module ===================== -/

/-- C8: `CreateWindow` returns a newly constructed frame (built from the
given kiway and parent) exactly for the recognized class identifier
`FRAME_GERBER`, and a null result for every other identifier. -/
theorem CreateWindow_dispatch (aParent : WxWindow) (aKiway : KIWAY)
    (aCtlBits : Nat) (aClassId : Nat) (h : aClassId ≠ FRAME_GERBER) :
    CreateWindow aParent FRAME_GERBER aKiway aCtlBits
        = some { kiway := aKiway, parent := aParent }
      ∧ CreateWindow aParent aClassId aKiway aCtlBits = none := by
  constructor
  · simp [CreateWindow]
  · simp [CreateWindow, h]

/-- Witness for C8 at a concrete unrecognized identifier. -/
theorem CreateWindow_dispatch_witness :
    CreateWindow ⟨5⟩ FRAME_GERBER ⟨7⟩ 0 = some { kiway := ⟨7⟩, parent := ⟨5⟩ }
      ∧ CreateWindow ⟨5⟩ 42 ⟨7⟩ 0 = none :=
  CreateWindow_dispatch ⟨5⟩ ⟨7⟩ 0 42 (by decide)

/-- C9: once `KIFACE_GETTER` has stored the host program pointer, `Pgm()`
does not trip its assertion and returns exactly the stored program; before
any call to `KIFACE_GETTER` (null `process`), `Pgm()` fires the assertion. -/
theorem Pgm_after_getter (aProgram : PGM_BASE) (s : ModuleState) :
    (Pgm (KIFACE_GETTER aProgram s)).assertFired = false
      ∧ (Pgm (KIFACE_GETTER aProgram s)).program = some aProgram
      ∧ (Pgm initialModuleState).assertFired = true := by
  refine ⟨rfl, rfl, rfl⟩

/-- C10: `SetValue` returns `false` for every variant, item and column, and
leaves the adapter state (tree, scores, preselect, expansion) unchanged:
the model rejects all edits through the display-widget interface. -/
theorem SetValue_rejects_all_edits (st : AdapterState) (aVariant : String)
    (aItem : Handle) (aCol : Nat) :
    SetValue st aVariant aItem aCol = (false, st) :=
  rfl

/- ===================== helper lemmas: scoring ===================== -/

/-- An empty search gives every leaf the passthrough score. -/
theorem matchScore_empty (name desc : String) :
    matchScore "" name desc = kPassthroughScore :=
  rfl

/-- The score of a rescored alias leaf. -/
theorem scoreAlias_score (aSearch : String) (a : AliasNode) :
    (scoreAlias aSearch a).score = matchScore aSearch a.name a.desc :=
  rfl

/-- An empty search gives every alias leaf the passthrough score. -/
theorem scoreAlias_empty_score (a : AliasNode) :
    (scoreAlias "" a).score = kPassthroughScore :=
  rfl

/-- An empty search gives every library node the passthrough score. -/
theorem scoreLib_empty_score (l : LibNode) :
    (scoreLib "" l).score = kPassthroughScore :=
  rfl

/-- The libraries of the scored tree are the scored libraries, in order. -/
theorem scoreTree_libs (aSearch : String) (t : RootNode) :
    (scoreTree aSearch t).libs = t.libs.map (scoreLib aSearch) :=
  rfl

/-- Scoring never changes the shape of one alias leaf. -/
theorem aliasShape_scoreAlias (aSearch : String) (a : AliasNode) :
    aliasShape (scoreAlias aSearch a) = aliasShape a := by
  simp [aliasShape, scoreAlias]

/-- Scoring never changes the shape of one library node. -/
theorem libShape_scoreLib (aSearch : String) (l : LibNode) :
    libShape (scoreLib aSearch l) = libShape l := by
  show (l.name, (l.aliases.map (scoreAlias aSearch)).map aliasShape)
      = (l.name, l.aliases.map aliasShape)
  rw [List.map_map]
  exact congrArg (Prod.mk l.name)
    (List.map_congr_left fun a _ => aliasShape_scoreAlias aSearch a)

/-- Scoring never changes the shape of the tree: parent/child structure,
names, insertion order and node counts are all preserved. -/
theorem treeShape_scoreTree (aSearch : String) (t : RootNode) :
    treeShape (scoreTree aSearch t) = treeShape t := by
  unfold treeShape
  rw [scoreTree_libs, List.map_map]
  exact List.map_congr_left fun l hl => libShape_scoreLib aSearch l

/- ===================== C2: empty search ===================== -/

/-- C2: updating with the empty search string makes every node visible
(libraries, aliases and units all receive the passthrough score, so the
filter removes nothing) and the visible set is the node set in its original
insertion order (shape, names and order are untouched). -/
theorem UpdateSearchString_empty_all_visible (st : AdapterState) :
    visibleLibs (UpdateSearchString "" st).tree
        = (UpdateSearchString "" st).tree.libs
      ∧ (UpdateSearchString "" st).tree.libs.map visibleAliases
          = (UpdateSearchString "" st).tree.libs.map LibNode.aliases
      ∧ (UpdateSearchString "" st).tree.libs.map (fun l => l.aliases.map visibleUnits)
          = (UpdateSearchString "" st).tree.libs.map (fun l => l.aliases.map AliasNode.units)
      ∧ treeShape (UpdateSearchString "" st).tree = treeShape st.tree
      ∧ (UpdateSearchString "" st).tree.libs.map (fun l => l.aliases.map AliasNode.score)
          = st.tree.libs.map (fun l => l.aliases.map fun _ => kPassthroughScore) := by
  have htree : (UpdateSearchString "" st).tree = scoreTree "" st.tree := rfl
  rw [htree, scoreTree_libs]
  refine ⟨?_, ?_, ?_, treeShape_scoreTree "" st.tree, ?_⟩
  · rw [visibleLibs, scoreTree_libs]
    refine List.filter_eq_self.mpr fun l hl => ?_
    obtain ⟨l0, hl0, rfl⟩ := List.mem_map.mp hl
    simp [scoreLib_empty_score, kPassthroughScore]
  · refine List.map_congr_left fun l hl => ?_
    obtain ⟨l0, hl0, rfl⟩ := List.mem_map.mp hl
    rw [visibleAliases]
    refine List.filter_eq_self.mpr fun a ha => ?_
    have : (scoreLib "" l0).aliases = l0.aliases.map (scoreAlias "") := rfl
    rw [this] at ha
    obtain ⟨a0, ha0, rfl⟩ := List.mem_map.mp ha
    simp [scoreAlias_empty_score, kPassthroughScore]
  · refine List.map_congr_left fun l hl => ?_
    obtain ⟨l0, hl0, rfl⟩ := List.mem_map.mp hl
    have hals : (scoreLib "" l0).aliases = l0.aliases.map (scoreAlias "") := rfl
    rw [hals, List.map_map, List.map_map]
    refine List.map_congr_left fun a ha => ?_
    rw [Function.comp, Function.comp, visibleUnits]
    have hunits : (scoreAlias "" a).units
        = a.units.map fun u => { u with score := matchScore "" a.name a.desc } := rfl
    rw [hunits]
    refine List.filter_eq_self.mpr fun u hu => ?_
    obtain ⟨u0, hu0, rfl⟩ := List.mem_map.mp hu
    simp [matchScore_empty, kPassthroughScore]
  · rw [List.map_map]
    refine List.map_congr_left fun l hl => ?_
    rw [Function.comp]
    have hals : (scoreLib "" l).aliases = l.aliases.map (scoreAlias "") := rfl
    rw [hals, List.map_map]
    exact List.map_congr_left fun a ha => scoreAlias_empty_score a

/- ===================== C7: sentinel accessors ===================== -/

/-- C7: on an invalid handle or a handle denoting a non-leaf node (a
library grouping), `GetAliasFor` returns the null sentinel, `GetUnitFor`
the zero "no unit" sentinel, and `GetTypeFor` the `INVALID` sentinel. The
accessors are total pure functions of the handle, so they neither mutate
adapter state nor terminate the process. -/
theorem accessors_return_sentinels (h : Handle)
    (hbad : h = none ∨ ∃ l, h = some (HNode.lib l)) :
    GetAliasFor h = none ∧ GetUnitFor h = 0 ∧ GetTypeFor h = TYPE.INVALID := by
  rcases hbad with rfl | ⟨l, rfl⟩ <;> exact ⟨rfl, rfl, rfl⟩

/-- Witness for C7 at the invalid handle. -/
theorem accessors_return_sentinels_witness :
    GetAliasFor none = none ∧ GetUnitFor none = 0
      ∧ GetTypeFor none = TYPE.INVALID :=
  accessors_return_sentinels none (Or.inl rfl)

/- ===================== C1: expansion policy dispatch ===================== -/

/-- An expansion produced by `ShowResults` is tagged with the
search-results policy. -/
theorem ShowResults_policy {aSearch : String} {t : RootNode} {e : Expansion}
    (h : ShowResults aSearch t = some e) : e.policy = Policy.results := by
  unfold ShowResults at h
  split at h
  · rcases Option.map_eq_some'.mp h with ⟨a, ha, rfl⟩
    rfl
  · cases h

/-- An expansion produced by `ShowPreselect` is tagged with the preselect
policy. -/
theorem ShowPreselect_policy {t : RootNode} {pre : Option (LIB_ID × Nat)}
    {e : Expansion} (h : ShowPreselect t pre = some e) :
    e.policy = Policy.preselect := by
  unfold ShowPreselect at h
  split at h
  · split at h
    · cases h
      rfl
    · cases h
  · cases h

/-- An expansion produced by `ShowSingleLibrary` is tagged with the
single-library policy. -/
theorem ShowSingleLibrary_policy {t : RootNode} {e : Expansion}
    (h : ShowSingleLibrary t = some e) : e.policy = Policy.singleLibrary := by
  unfold ShowSingleLibrary at h
  split at h
  · cases h
    rfl
  · cases h

/-- C1 (amended): per `UpdateSearchString` call, at most one expansion
policy fires — exactly the first applicable one in priority order
(search results, then preselect, then single library) — and when no
policy's condition holds, none fires. -/
theorem UpdateSearchString_first_applicable_policy (aSearch : String)
    (st : AdapterState) :
    ((UpdateSearchString aSearch st).lastExpansion).map Expansion.policy
      = (applicablePolicies aSearch (scoreTree aSearch st.tree)
          st.preselect).head? := by
  have hle : (UpdateSearchString aSearch st).lastExpansion
      = expandAfterScore aSearch (scoreTree aSearch st.tree) st.preselect := rfl
  rw [hle]
  generalize scoreTree aSearch st.tree = t
  generalize st.preselect = pre
  unfold expandAfterScore applicablePolicies
  cases h1 : ShowResults aSearch t with
  | some e => simp [ShowResults_policy h1]
  | none =>
    cases h2 : ShowPreselect t pre with
    | some e => simp [ShowPreselect_policy h2]
    | none =>
      cases h3 : ShowSingleLibrary t with
      | some e => simp [h3, ShowSingleLibrary_policy h3]
      | none => simp [h3]

/-- Counterexample to C1 as stated: a legitimate `UpdateSearchString` call
(empty search text, so no scored search results; no preselect key set; two
libraries loaded) under which none of the three expansion policies fires —
not exactly one. -/
theorem UpdateSearchString_no_policy_fires_cex :
    (UpdateSearchString "" exStateTwoLibs).lastExpansion = none := by
  rfl

/- ===================== C6: frame, idempotence ===================== -/

/-- Rescoring an already rescored alias changes nothing: the score is
recomputed from the unchanged name and description. -/
theorem scoreAlias_idem (aSearch : String) (a : AliasNode) :
    scoreAlias aSearch (scoreAlias aSearch a) = scoreAlias aSearch a := by
  unfold scoreAlias
  simp only [List.map_map]
  congr 1

/-- Rescoring an already rescored library changes nothing. -/
theorem scoreLib_idem (aSearch : String) (l : LibNode) :
    scoreLib aSearch (scoreLib aSearch l) = scoreLib aSearch l := by
  unfold scoreLib
  simp only [List.map_map]
  have hmap : l.aliases.map (scoreAlias aSearch ∘ scoreAlias aSearch)
      = l.aliases.map (scoreAlias aSearch) :=
    List.map_congr_left fun a _ => scoreAlias_idem aSearch a
  have hscores : l.aliases.map (AliasNode.score ∘ (scoreAlias aSearch ∘ scoreAlias aSearch))
      = l.aliases.map (AliasNode.score ∘ scoreAlias aSearch) :=
    List.map_congr_left fun a _ => congrArg AliasNode.score (scoreAlias_idem aSearch a)
  simp [hmap, hscores]

/-- Rescoring an already rescored tree changes nothing. -/
theorem scoreTree_idem (aSearch : String) (t : RootNode) :
    scoreTree aSearch (scoreTree aSearch t) = scoreTree aSearch t := by
  unfold scoreTree
  simp only [List.map_map]
  exact congrArg _ (List.map_congr_left fun l _ => scoreLib_idem aSearch l)

/-- C6: `UpdateSearchString` mutates only scores and the revealed-expansion
state: the tree's shape (structure, names, insertion order, node counts)
and the preselect key survive every call unchanged, and the operation is
idempotent — repeating it with the same text reproduces the state exactly.
It is deterministic by construction: in this embedding it is a pure
function of the search text and the state. -/
theorem UpdateSearchString_frame_idempotent (aSearch : String)
    (st : AdapterState) :
    treeShape (UpdateSearchString aSearch st).tree = treeShape st.tree
      ∧ (UpdateSearchString aSearch st).preselect = st.preselect
      ∧ UpdateSearchString aSearch (UpdateSearchString aSearch st)
          = UpdateSearchString aSearch st := by
  refine ⟨treeShape_scoreTree aSearch st.tree, rfl, ?_⟩
  cases st with
  | mk tree pre le =>
    simp [UpdateSearchString, scoreTree_idem]

/- ===================== C3: FindItem / GetAliasFor roundtrip ===================== -/

/-- The populated tree's libraries are one constructed library node per
insertion call, in call order. -/
theorem populate_libs (aLibs : List (String × List AliasData)) :
    (populate aLibs).libs = aLibs.map fun p => mkLibNode p.1 p.2 := by
  have h : ∀ (t : RootNode),
      (aLibs.foldl (fun t p => AddAliasList t p.1 p.2) t).libs
        = t.libs ++ aLibs.map fun p => mkLibNode p.1 p.2 := by
    induction aLibs with
    | nil => intro t; simp
    | cons p rest ih =>
      intro t
      rw [List.foldl_cons, ih]
      simp [AddAliasList]
  simpa [populate, emptyTree] using h { libs := [] }

/-- What a successful `findInLib` on a populated library node yields: an
alias of that library, whose key is the library's name paired with the
alias's own name, both matching the searched key. -/
theorem findInLib_mkLibNode_some {nodeName : String} {ds : List AliasData}
    {k : LIB_ID} {a : AliasNode}
    (h : findInLib (mkLibNode nodeName ds) k = some a) :
    a.libId = { libNickname := nodeName, libItemName := a.name }
      ∧ a.name = k.libItemName := by
  unfold findInLib at h
  split at h
  · have hmem := List.mem_of_find?_eq_some h
    have hpred := List.find?_some h
    have hname : a.name = k.libItemName := by
      exact eq_of_beq hpred
    refine ⟨?_, hname⟩
    have : (mkLibNode nodeName ds).aliases = ds.map (mkAliasNode nodeName) := rfl
    rw [this] at hmem
    obtain ⟨d0, hd0, rfl⟩ := List.mem_map.mp hmem
    rfl
  · cases h

/-- A populated library node contains every alias it was populated with:
`findInLib` on its own name and one of its alias names cannot miss. -/
theorem findInLib_self_contains (L : String) (ds : List AliasData)
    (d : AliasData) (hd : d ∈ ds) :
    findInLib (mkLibNode L ds) { libNickname := L, libItemName := d.name }
      ≠ none := by
  unfold findInLib
  have hc : (mkLibNode L ds).name
      = ({ libNickname := L, libItemName := d.name } : LIB_ID).libNickname := rfl
  rw [if_pos hc]
  intro hnone
  rw [List.find?_eq_none] at hnone
  exact hnone (mkAliasNode L d) (List.mem_map.mpr ⟨d, hd, rfl⟩)
    (by simp [mkAliasNode])

/-- Over a populated library list, the `FindItem` walk started from any
populated leaf's key returns an alias leaf carrying exactly that key. -/
theorem findAliasInLibs_populate (aLibs : List (String × List AliasData))
    (L : String) (ds : List AliasData) (d : AliasData)
    (hlib : (L, ds) ∈ aLibs) (hd : d ∈ ds) :
    ∃ a, findAliasInLibs (aLibs.map fun p => mkLibNode p.1 p.2)
          { libNickname := L, libItemName := d.name } = some a
        ∧ a.libId = { libNickname := L, libItemName := d.name } := by
  induction aLibs with
  | nil => cases hlib
  | cons p rest ih =>
    rw [List.map_cons]
    cases hfl : findInLib (mkLibNode p.1 p.2)
        { libNickname := L, libItemName := d.name } with
    | some a =>
      refine ⟨a, ?_, ?_⟩
      · simp only [findAliasInLibs, hfl]
      · obtain ⟨hid, hname⟩ := findInLib_mkLibNode_some hfl
        have hnick : p.1 = L := by
          unfold findInLib at hfl
          by_cases hc : (mkLibNode p.1 p.2).name
              = ({ libNickname := L, libItemName := d.name } : LIB_ID).libNickname
          · exact hc
          · rw [if_neg hc] at hfl
            cases hfl
        rw [hid, hname, hnick]
    | none =>
      have hrest : (L, ds) ∈ rest := by
        rcases List.mem_cons.mp hlib with heq | hmem
        · exfalso
          have hp : p = (L, ds) := heq.symm
          subst hp
          exact findInLib_self_contains L ds d hd hfl
        · exact hmem
      obtain ⟨a, ha, hid⟩ := ih hrest
      refine ⟨a, ?_, hid⟩
      simp only [findAliasInLibs, hfl]
      exact ha

/-- C3: for every leaf inserted during population under selection key K
(library nickname plus component name), `FindItem` returns a valid handle
and `GetAliasFor` decodes that handle back to K: the composition is the
identity on keys of populated leaves. -/
theorem FindItem_GetAliasFor_roundtrip (aLibs : List (String × List AliasData))
    (L : String) (ds : List AliasData) (d : AliasData)
    (hlib : (L, ds) ∈ aLibs) (hd : d ∈ ds) :
    GetAliasFor (FindItem (populate aLibs)
        { libNickname := L, libItemName := d.name })
      = some { libNickname := L, libItemName := d.name } := by
  obtain ⟨a, ha, hid⟩ := findAliasInLibs_populate aLibs L ds d hlib hd
  unfold FindItem
  rw [populate_libs, ha]
  simp only [Option.map_some']
  show some a.libId = _
  rw [hid]

/-- Witness for C3: the concrete key ("74xx", "74HC00") of the populated
two-library example round-trips through `FindItem` and `GetAliasFor`. -/
theorem FindItem_GetAliasFor_roundtrip_witness :
    GetAliasFor (FindItem exTreeTwoLibs
        { libNickname := "74xx", libItemName := "74HC00" })
      = some { libNickname := "74xx", libItemName := "74HC00" } :=
  FindItem_GetAliasFor_roundtrip
    [("74xx", exAliases74),
     ("Connectors", [{ name := "CONN_01X02", desc := "Connector", unitCount := 1 }])]
    "74xx" exAliases74
    { name := "74HC00", desc := "Quad NAND gate", unitCount := 4 }
    (by decide) (by decide)

/- ===================== C4: monotone narrowing ===================== -/

/-- Only the empty needle is a prefix of an empty list. -/
theorem isEmpty_of_isPrefixOf_isEmpty {n1 n2 : List Char}
    (hpre : List.isPrefixOf n1 n2 = true) (h : n2.isEmpty = true) :
    n1.isEmpty = true := by
  cases n2 with
  | nil =>
    simp at hpre
    simp [hpre]
  | cons c rest => simp [List.isEmpty] at h

/-- If a needle occurs in a haystack, so does every prefix of the
needle: lengthening the search text can only lose occurrences. -/
theorem occursIn_mono (n1 n2 hay : List Char)
    (hpre : List.isPrefixOf n1 n2 = true) (h : occursIn n2 hay = true) :
    occursIn n1 hay = true := by
  induction hay with
  | nil =>
    unfold occursIn at h ⊢
    exact isEmpty_of_isPrefixOf_isEmpty hpre h
  | cons c rest ih =>
    unfold occursIn at h ⊢
    rcases Bool.or_eq_true_iff.mp h with h1 | h2
    · refine Bool.or_eq_true_iff.mpr (Or.inl ?_)
      simp only [ List.isPrefixOf_iff_prefix] at hpre h1 ⊢
      exact List.IsPrefix.trans hpre h1
    · exact Bool.or_eq_true_iff.mpr (Or.inr (ih h2))

/-- Every match score is bounded by the passthrough score. -/
theorem matchScore_le_passthrough (aSearch name desc : String) :
    matchScore aSearch name desc ≤ kPassthroughScore := by
  unfold matchScore kPassthroughScore
  split
  · exact le_refl _
  · split <;> split <;> omega

/-- Monotone narrowing at one leaf: when the first search string is a
prefix of the second, the second (longer) search never scores the leaf
higher than the first. -/
theorem matchScore_mono (s1 s2 name desc : String)
    (hpre : List.isPrefixOf s1.toList s2.toList = true) :
    matchScore s2 name desc ≤ matchScore s1 name desc := by
  by_cases h1 : s1.toList.isEmpty = true
  · have hs1 : matchScore s1 name desc = kPassthroughScore := by
      unfold matchScore
      rw [if_pos h1]
    rw [hs1]
    exact matchScore_le_passthrough s2 name desc
  · have h2 : ¬ s2.toList.isEmpty = true := by
      intro h2
      exact h1 (isEmpty_of_isPrefixOf_isEmpty hpre h2)
    unfold matchScore
    rw [if_neg h1, if_neg h2]
    have hn := occursIn_mono s1.toList s2.toList name.toList hpre
    have hdsc := occursIn_mono s1.toList s2.toList desc.toList hpre
    have t1 : (if occursIn s2.toList name.toList = true then (2 : Int) else 0)
        ≤ (if occursIn s1.toList name.toList = true then (2 : Int) else 0) := by
      by_cases hb2 : occursIn s2.toList name.toList = true
      · rw [if_pos hb2, if_pos (hn hb2)]
      · rw [if_neg hb2]
        split
        · omega
        · omega
    have t2 : (if occursIn s2.toList desc.toList = true then (1 : Int) else 0)
        ≤ (if occursIn s1.toList desc.toList = true then (1 : Int) else 0) := by
      by_cases hd2 : occursIn s2.toList desc.toList = true
      · rw [if_pos hd2, if_pos (hdsc hd2)]
      · rw [if_neg hd2]
        split
        · omega
        · omega
    exact add_le_add t1 t2

/-- The leaf score at a fixed position of the scored tree is the match
score of the unchanged leaf at that position of the original tree. -/
theorem aliasScoreAt_scoreTree (aSearch : String) (t : RootNode) (i j : Nat) :
    aliasScoreAt (scoreTree aSearch t) i j
      = ((t.libs[i]?).bind fun l => l.aliases[j]?).map
          fun a => matchScore aSearch a.name a.desc := by
  unfold aliasScoreAt
  rw [scoreTree_libs, List.getElem?_map]
  cases hl : t.libs[i]? with
  | none => rfl
  | some l =>
    have hals : (scoreLib aSearch l).aliases = l.aliases.map (scoreAlias aSearch) := rfl
    simp only [Option.map_some', Option.some_bind, hals, List.getElem?_map]
    cases ha : l.aliases[j]? with
    | none => rfl
    | some a => rfl

/-- The library score at a fixed index of the scored tree is the rescored
library score of the unchanged library at that index of the original
tree. -/
theorem libScoreAt_scoreTree (aSearch : String) (t : RootNode) (i : Nat) :
    libScoreAt (scoreTree aSearch t) i
      = (t.libs[i]?).map fun l => (scoreLib aSearch l).score := by
  unfold libScoreAt
  rw [scoreTree_libs, List.getElem?_map]
  cases hl : t.libs[i]? <;> rfl

/-- The unit score at a fixed position of the scored tree is the match
score of the unchanged enclosing leaf: units inherit the leaf's score. -/
theorem unitScoreAt_scoreTree (aSearch : String) (t : RootNode) (i j u : Nat) :
    unitScoreAt (scoreTree aSearch t) i j u
      = (t.libs[i]?).bind fun l =>
          (l.aliases[j]?).bind fun a =>
            (a.units[u]?).map fun _ => matchScore aSearch a.name a.desc := by
  unfold unitScoreAt
  rw [scoreTree_libs, List.getElem?_map]
  cases hl : t.libs[i]? with
  | none => rfl
  | some l =>
    simp only [Option.map_some', Option.some_bind]
    have hals : (scoreLib aSearch l).aliases = l.aliases.map (scoreAlias aSearch) := rfl
    rw [hals, List.getElem?_map]
    cases ha : l.aliases[j]? with
    | none => rfl
    | some a =>
      simp only [Option.map_some', Option.some_bind]
      have hus : (scoreAlias aSearch a).units
          = a.units.map fun u0 =>
              { u0 with score := matchScore aSearch a.name a.desc } := rfl
      rw [hus, List.getElem?_map]
      cases hu : a.units[u]? <;> rfl

/-- The best score of a list is bounded by any nonnegative bound on its
elements. -/
theorem bestScore_le {c : Int} (hc : 0 ≤ c) :
    ∀ (l : List Int), (∀ x ∈ l, x ≤ c) → bestScore l ≤ c := by
  intro l
  induction l with
  | nil => intro _; exact hc
  | cons x rest ih =>
    intro h
    show max x (bestScore rest) ≤ c
    exact max_le (h x (List.mem_cons_self x rest)) (ih fun y hy => h y (List.mem_cons_of_mem x hy))

/-- Pointwise smaller leaf scores give a smaller propagated best score. -/
theorem bestScore_map_mono {α : Type} (f g : α → Int) (as : List α)
    (h : ∀ a ∈ as, f a ≤ g a) :
    bestScore (as.map f) ≤ bestScore (as.map g) := by
  induction as with
  | nil => exact le_refl 0
  | cons a rest ih =>
    show max (f a) (bestScore (rest.map f)) ≤ max (g a) (bestScore (rest.map g))
    exact max_le_max (h a (List.mem_cons_self a rest))
      (ih fun x hx => h x (List.mem_cons_of_mem a hx))

/-- The rescored score of one library node, written without the
intermediate rescored alias list. -/
theorem scoreLib_score (aSearch : String) (l : LibNode) :
    (scoreLib aSearch l).score
      = if aSearch.toList.isEmpty then kPassthroughScore
        else bestScore (l.aliases.map fun a => matchScore aSearch a.name a.desc) := by
  show (if aSearch.toList.isEmpty then kPassthroughScore
      else bestScore ((l.aliases.map (scoreAlias aSearch)).map AliasNode.score)) = _
  rw [List.map_map]
  rfl

/-- Monotone narrowing at one library node: when the first search string
is a prefix of the second, the propagated best-child score under the
second search never exceeds the one under the first. -/
theorem scoreLib_score_mono (s1 s2 : String) (l : LibNode)
    (hpre : List.isPrefixOf s1.toList s2.toList = true) :
    (scoreLib s2 l).score ≤ (scoreLib s1 l).score := by
  rw [scoreLib_score, scoreLib_score]
  by_cases h2 : s2.toList.isEmpty = true
  · have h1 : s1.toList.isEmpty = true := isEmpty_of_isPrefixOf_isEmpty hpre h2
    rw [if_pos h1, if_pos h2]
  · by_cases h1 : s1.toList.isEmpty = true
    · rw [if_pos h1, if_neg h2]
      refine bestScore_le (by norm_num [kPassthroughScore]) _ fun x hx => ?_
      obtain ⟨a, ha, rfl⟩ := List.mem_map.mp hx
      exact matchScore_le_passthrough s2 a.name a.desc
    · rw [if_neg h1, if_neg h2]
      exact bestScore_map_mono _ _ l.aliases
        fun a _ => matchScore_mono s1 s2 a.name a.desc hpre

/-- C4: for search strings S1 and S2 with S1 a prefix of S2, the score of
any node — library, alias/component or unit — visible after scoring with
S2 is at most its score after scoring with S1: narrowing the search never
raises a visible node's score. -/
theorem search_narrowing_monotone (s1 s2 : String) (t : RootNode)
    (p : NodePos) (w1 w2 : Int)
    (hpre : List.isPrefixOf s1.toList s2.toList = true)
    (h2 : scoreAt (scoreTree s2 t) p = some w2)
    (h1 : scoreAt (scoreTree s1 t) p = some w1)
    (hvis : 0 < w2) :
    w2 ≤ w1 := by
  cases p with
  | lib i =>
    have e2 : libScoreAt (scoreTree s2 t) i = some w2 := h2
    have e1 : libScoreAt (scoreTree s1 t) i = some w1 := h1
    rw [libScoreAt_scoreTree] at e1 e2
    cases hl : t.libs[i]? with
    | none =>
      rw [hl] at e2
      cases e2
    | some l =>
      rw [hl] at e1 e2
      simp only [Option.map_some', Option.some.injEq] at e1 e2
      rw [← e1, ← e2]
      exact scoreLib_score_mono s1 s2 l hpre
  | aliasP i j =>
    have e2 : aliasScoreAt (scoreTree s2 t) i j = some w2 := h2
    have e1 : aliasScoreAt (scoreTree s1 t) i j = some w1 := h1
    rw [aliasScoreAt_scoreTree] at e1 e2
    cases hx : (t.libs[i]?).bind fun l => l.aliases[j]? with
    | none =>
      rw [hx] at e2
      cases e2
    | some a =>
      rw [hx] at e1 e2
      simp only [Option.map_some', Option.some.injEq] at e1 e2
      rw [← e1, ← e2]
      exact matchScore_mono s1 s2 a.name a.desc hpre
  | unitP i j u =>
    have e2 : unitScoreAt (scoreTree s2 t) i j u = some w2 := h2
    have e1 : unitScoreAt (scoreTree s1 t) i j u = some w1 := h1
    rw [unitScoreAt_scoreTree] at e1 e2
    cases hl : t.libs[i]? with
    | none =>
      rw [hl] at e2
      cases e2
    | some l =>
      rw [hl] at e1 e2
      simp only [Option.some_bind] at e1 e2
      cases ha : l.aliases[j]? with
      | none =>
        rw [ha] at e2
        cases e2
      | some a =>
        rw [ha] at e1 e2
        simp only [Option.some_bind] at e1 e2
        cases hu : a.units[u]? with
        | none =>
          rw [hu] at e2
          cases e2
        | some u0 =>
          rw [hu] at e1 e2
          simp only [Option.map_some', Option.some.injEq] at e1 e2
          rw [← e1, ← e2]
          exact matchScore_mono s1 s2 a.name a.desc hpre

/-- Witness for C4: over the two-library example, searching "74H" (an
extension of "74") leaves the visible library node "74xx" — whose score is
propagated from its best child — with a score no higher than under "74". -/
theorem search_narrowing_monotone_witness :
    scoreAt (scoreTree "74H" exTreeTwoLibs) (NodePos.lib 0) = some 2
      ∧ scoreAt (scoreTree "74" exTreeTwoLibs) (NodePos.lib 0) = some 2
      ∧ (2 : Int) ≤ 2 :=
  ⟨by decide, by decide,
    search_narrowing_monotone "74" "74H" exTreeTwoLibs (NodePos.lib 0) 2 2
      (by decide) (by decide) (by decide) (by decide)⟩

/- ===================== C5: width cache ===================== -/

/-- A `WidthFor` call that hits the cache returns the cached width, leaves
the cache unchanged and does not invoke the measurement facility. -/
theorem WidthFor_eq_hit {measure : String → Nat → Int} {c : WidthCache}
    {text : String} {aCol : Nat} {w : Int}
    (h : cacheLookup c text aCol = some w) :
    WidthFor measure c text aCol = { width := w, cache := c, measured := false } := by
  unfold WidthFor
  rw [h]

/-- A `WidthFor` call that misses the cache invokes the measurement
facility and stores the measured width at the front of the cache. -/
theorem WidthFor_eq_miss {measure : String → Nat → Int} {c : WidthCache}
    {text : String} {aCol : Nat}
    (h : cacheLookup c text aCol = none) :
    WidthFor measure c text aCol
      = { width := measure text aCol,
          cache := { entries := (text, aCol, measure text aCol) :: c.entries },
          measured := true } := by
  unfold WidthFor
  rw [h]

/-- A freshly stored entry is found by a lookup with the same text and
column. -/
theorem cacheLookup_insert_self (c : WidthCache) (text : String) (aCol : Nat)
    (w : Int) :
    cacheLookup { entries := (text, aCol, w) :: c.entries } text aCol
      = some w := by
  unfold cacheLookup
  rw [List.find?_cons_of_pos]
  · rfl
  · simp

/-- C5: on a cache miss, the first `WidthFor` call measures the displayed
text via the measurement facility and stores the result keyed by the text
value; a subsequent call for any node displaying the identical text in the
same column — including a distinct node — returns the same cached width
without invoking the measurement facility, and leaves the cache unchanged.
The cache is a single process-wide value, so the same holds across adapter
instances. -/
theorem WidthFor_measures_once (measure : String → Nat → Int)
    (c : WidthCache) (n1 n2 : AliasNode) (aCol : Nat)
    (hsame : displayText n2 aCol = displayText n1 aCol)
    (hmiss : cacheLookup c (displayText n1 aCol) aCol = none) :
    (WidthForNode measure c n1 aCol).measured = true
      ∧ (WidthForNode measure c n1 aCol).width
          = measure (displayText n1 aCol) aCol
      ∧ cacheLookup (WidthForNode measure c n1 aCol).cache
            (displayText n1 aCol) aCol
          = some (measure (displayText n1 aCol) aCol)
      ∧ (WidthForNode measure (WidthForNode measure c n1 aCol).cache n2 aCol).measured
          = false
      ∧ (WidthForNode measure (WidthForNode measure c n1 aCol).cache n2 aCol).width
          = (WidthForNode measure c n1 aCol).width
      ∧ (WidthForNode measure (WidthForNode measure c n1 aCol).cache n2 aCol).cache
          = (WidthForNode measure c n1 aCol).cache := by
  unfold WidthForNode
  rw [hsame, WidthFor_eq_miss hmiss]
  rw [WidthFor_eq_hit (cacheLookup_insert_self c (displayText n1 aCol) aCol
    (measure (displayText n1 aCol) aCol))]
  exact ⟨rfl, rfl,
    cacheLookup_insert_self c (displayText n1 aCol) aCol
      (measure (displayText n1 aCol) aCol),
    rfl, rfl, rfl⟩

/-- Witness for C5: in the empty cache, measuring node A's column-0 text
"74HC00" stores its width, and the call for the distinct node B displaying
the identical text hits the cache without measuring. -/
theorem WidthFor_measures_once_witness :
    (WidthForNode exMeasure exEmptyCache exNodeA 0).measured = true
      ∧ (WidthForNode exMeasure exEmptyCache exNodeA 0).width
          = exMeasure (displayText exNodeA 0) 0
      ∧ cacheLookup (WidthForNode exMeasure exEmptyCache exNodeA 0).cache
            (displayText exNodeA 0) 0
          = some (exMeasure (displayText exNodeA 0) 0)
      ∧ (WidthForNode exMeasure (WidthForNode exMeasure exEmptyCache exNodeA 0).cache exNodeB 0).measured
          = false
      ∧ (WidthForNode exMeasure (WidthForNode exMeasure exEmptyCache exNodeA 0).cache exNodeB 0).width
          = (WidthForNode exMeasure exEmptyCache exNodeA 0).width
      ∧ (WidthForNode exMeasure (WidthForNode exMeasure exEmptyCache exNodeA 0).cache exNodeB 0).cache
          = (WidthForNode exMeasure exEmptyCache exNodeA 0).cache :=
  WidthFor_measures_once exMeasure exEmptyCache exNodeA exNodeB 0
    (by decide) (by decide)
